import Mathlib

/-!
Shallow embedding of the `cog-validator` repository (src/tiff-parser.ts and
src/validator.ts).  Byte buffers are modelled as `List Nat` (one element per
byte); `DataView` reads are modelled by `getUint`, which returns `none`
exactly when the read would run past the end of the buffer (the JS runtime
throws a `RangeError` there, modelled by the `rangeError` kind).  All numeric
values read from the buffer are unsigned and fit `Nat` exactly.
-/

namespace Cog

/-- Value of a byte list interpreted least-significant byte first. -/
def leVal : List Nat → Nat
  | [] => 0
  | b :: rest => b + 256 * leVal rest

/-- Models `DataView.getUintN(off, littleEndian)` over `n` bytes: `none` when
the read would exceed the buffer bounds (JS throws `RangeError`). -/
def getUint (view : List Nat) (off n : Nat) (littleEndian : Bool) : Option Nat :=
  if off + n ≤ view.length then
    some (if littleEndian then leVal ((view.drop off).take n)
          else leVal ((view.drop off).take n).reverse)
  else
    none

/-- The error kinds the parser can produce.  The JS code throws `Error`
objects with these messages; `rangeError` stands for the runtime
`RangeError` a `DataView` throws on an out-of-bounds read (the code itself
performs no bounds checks). -/
inductive ParseError where
  /-- "Not a valid TIFF file: bad byte order marker" -/
  | badByteOrder : ParseError
  /-- "Not a valid TIFF file: bad magic number <value>" -/
  | badMagic (value : Nat) : ParseError
  /-- "Circular IFD reference detected at offset <offset>" -/
  | circular (offset : Nat) : ParseError
  /-- "Esceeded maximum IFD count (<max>), file may be malformed" -/
  | tooLong (max : Nat) : ParseError
  /-- JS runtime `RangeError` from an out-of-bounds `DataView` read. -/
  | rangeError : ParseError
deriving DecidableEq, Repr

/-- Embeds `TiffHeader` from src/types.ts (`number | bigint` offsets become
`Nat`). -/
structure TiffHeader where
  bigTiff : Bool
  littleEndian : Bool
  firstIfdOffset : Nat
deriving DecidableEq, Repr

/-- Embeds `IfdEntry` from src/types.ts. -/
structure IfdEntry where
  tag : Nat
  type : Nat
  count : Nat
  value : Nat
deriving DecidableEq, Repr

/-- Embeds `Ifd` from src/types.ts. -/
structure Ifd where
  offset : Nat
  entries : List IfdEntry
  nextIfdOffset : Nat
deriving DecidableEq, Repr

/-- Embeds `TiffStructure` from src/types.ts. -/
structure TiffStructure where
  header : TiffHeader
  ifds : List Ifd
deriving DecidableEq, Repr

/-- Embeds `ValidationResult` from src/types.ts. -/
structure ValidationResult where
  valid : Bool
  errors : List String
  warnings : List String
deriving DecidableEq, Repr

/-- Embeds `parseHeader` from src/tiff-parser.ts. -/
def parseHeader (view : List Nat) : Except ParseError TiffHeader :=
  match getUint view 0 2 false with
  | none => .error .rangeError
  | some byteOrder =>
    if byteOrder ≠ 0x4949 ∧ byteOrder ≠ 0x4d4d then .error .badByteOrder
    else
      let littleEndian := byteOrder == 0x4949
      match getUint view 2 2 littleEndian with
      | none => .error .rangeError
      | some magic =>
        if magic ≠ 42 ∧ magic ≠ 43 then .error (.badMagic magic)
        else
          let bigTiff := magic == 43
          match (if bigTiff then getUint view 8 8 littleEndian
                 else getUint view 4 4 littleEndian) with
          | none => .error .rangeError
          | some firstIfdOffset =>
            .ok { bigTiff := bigTiff, littleEndian := littleEndian,
                  firstIfdOffset := firstIfdOffset }

/-- Embeds `parseIfdEntry` from src/tiff-parser.ts. -/
def parseIfdEntry (view : List Nat) (offset : Nat) (header : TiffHeader) :
    Except ParseError IfdEntry :=
  let le := header.littleEndian
  match getUint view offset 2 le, getUint view (offset + 2) 2 le with
  | some tag, some ty =>
    if header.bigTiff then
      match getUint view (offset + 4) 8 le, getUint view (offset + 12) 8 le with
      | some count, some value =>
        .ok { tag := tag, type := ty, count := count, value := value }
      | _, _ => .error .rangeError
    else
      match getUint view (offset + 4) 4 le, getUint view (offset + 8) 4 le with
      | some count, some value =>
        .ok { tag := tag, type := ty, count := count, value := value }
      | _, _ => .error .rangeError
  | _, _ => .error .rangeError

/-- The entry loop of `parseIfd`: parse `n` fixed-size entry records starting
at `pos`, advancing by the record size (12 classic, 20 wide) each time. -/
def parseEntries (view : List Nat) (header : TiffHeader) :
    Nat → Nat → Except ParseError (List IfdEntry)
  | _, 0 => .ok []
  | pos, n + 1 =>
    match parseIfdEntry view pos header with
    | .error e => .error e
    | .ok entry =>
      match parseEntries view header (pos + (if header.bigTiff then 20 else 12)) n with
      | .error e => .error e
      | .ok rest => .ok (entry :: rest)

/-- Embeds `parseIfd` from src/tiff-parser.ts: read the entry count (2 bytes
classic, 8 wide), the entry records, then the next-directory offset at
`offset + countSize + entryCount × recordSize` (4 bytes classic, 8 wide). -/
def parseIfd (view : List Nat) (offset : Nat) (header : TiffHeader) :
    Except ParseError Ifd :=
  match (if header.bigTiff then getUint view offset 8 header.littleEndian
         else getUint view offset 2 header.littleEndian) with
  | none => .error .rangeError
  | some entryCount =>
    match parseEntries view header (offset + (if header.bigTiff then 8 else 2))
        entryCount with
    | .error e => .error e
    | .ok entries =>
      match (if header.bigTiff then
               getUint view (offset + 8 + entryCount * 20) 8 header.littleEndian
             else
               getUint view (offset + 2 + entryCount * 12) 4 header.littleEndian) with
      | none => .error .rangeError
      | some nextIfdOffset =>
        .ok { offset := offset, entries := entries, nextIfdOffset := nextIfdOffset }

/-- `MAX_IFDS` from src/tiff-parser.ts. -/
def MAX_IFDS : Nat := 1000

/-- The `while` loop of `parseAllIfds`.  `fuel` is `MAX_IFDS - ifds.length`:
the JS loop checks `ifds.length >= MAX_IFDS` first, then the visited set,
then parses; `fuel = 0` with a nonzero offset is exactly the
`ifds.length >= MAX_IFDS` branch. -/
def parseIfdsAux (view : List Nat) (header : TiffHeader) :
    Nat → Nat → List Nat → Except ParseError (List Ifd)
  | fuel, off, seen =>
    if off = 0 then .ok []
    else
      match fuel with
      | 0 => .error (.tooLong MAX_IFDS)
      | fuel' + 1 =>
        if off ∈ seen then .error (.circular off)
        else
          match parseIfd view off header with
          | .error e => .error e
          | .ok ifd =>
            match parseIfdsAux view header fuel' ifd.nextIfdOffset (off :: seen) with
            | .error e => .error e
            | .ok rest => .ok (ifd :: rest)

/-- Embeds `parseAllIfds` from src/tiff-parser.ts. -/
def parseAllIfds (view : List Nat) (header : TiffHeader) :
    Except ParseError (List Ifd) :=
  parseIfdsAux view header MAX_IFDS header.firstIfdOffset []

/-- Embeds `parseTiff` from src/tiff-parser.ts. -/
def parseTiff (buffer : List Nat) : Except ParseError TiffStructure :=
  match parseHeader buffer with
  | .error e => .error e
  | .ok header =>
    match parseAllIfds buffer header with
    | .error e => .error e
    | .ok ifds => .ok { header := header, ifds := ifds }

/-- Embeds `getTagValue` from src/validator.ts (`Array.find` keeps the first
match in stored order). -/
def getTagValue (ifd : Ifd) (tagId : Nat) : Option Nat :=
  (ifd.entries.find? (fun e => e.tag == tagId)).map (fun e => e.value)

/-- Embeds `isTiled` from src/validator.ts: TileWidth = 322,
TileLength = 323, TileOffsets = 324. -/
def isTiled (ifd : Ifd) : Bool :=
  (getTagValue ifd 322).isSome && (getTagValue ifd 323).isSome &&
    (getTagValue ifd 324).isSome

/-- Embeds `estimateIfdSize` from src/validator.ts. -/
def estimateIfdSize (ifd : Ifd) : Nat :=
  6 + ifd.entries.length * 12

/-- Embeds `validate` from src/validator.ts.  `Math.max(...)` /
`Math.min(...)` over a nonempty spread become folds; for `Nat` offsets
`foldl max 0` equals the maximum of the (nonempty) list. -/
def validate (s : TiffStructure) : ValidationResult :=
  match s.ifds with
  | [] => { valid := false, errors := ["No IFDs found in file"], warnings := [] }
  | ifd0 :: rest =>
    let ifds := ifd0 :: rest
    let errors := ifds.enum.filterMap (fun p =>
      if isTiled p.2 then none
      else some ((if p.1 = 0 then "Main image" else "Overview " ++ toString p.1)
        ++ " is not tiled"))
    let lastIfdEnd := (ifds.map Ifd.offset).foldl max 0
      + estimateIfdSize (ifds.getLast (List.cons_ne_nil ifd0 rest))
    let tileDataOffsets := ifds.filterMap (fun ifd => getTagValue ifd 324)
    let warnings :=
      match tileDataOffsets with
      | [] => []
      | t :: ts =>
        if ts.foldl min t < lastIfdEnd then
          ["Tile data may be interleaved with IFDs."]
        else []
    { valid := errors.length == 0, errors := errors, warnings := warnings }

/-- A little-endian classic header record with first directory offset 8,
as produced for the buffer `49 49 2A 00 08 00 00 00`. -/
def hdrLE8 : TiffHeader :=
  { bigTiff := false, littleEndian := true, firstIfdOffset := 8 }

/-- The buffer `49 49 2A 00 00 00 00 00`: valid classic little-endian header
with first directory offset 0. -/
def zeroOffBuf : List Nat := [0x49, 0x49, 0x2a, 0x00, 0x00, 0x00, 0x00, 0x00]

/-- The little-endian classic header bytes `49 49 2A 00 08 00 00 00`. -/
def hdrBufLE : List Nat := [0x49, 0x49, 0x2a, 0x00, 0x08, 0x00, 0x00, 0x00]

/-- The big-endian classic header bytes `4D 4D 00 2A 00 00 00 08`. -/
def hdrBufBE : List Nat := [0x4d, 0x4d, 0x00, 0x2a, 0x00, 0x00, 0x00, 0x08]

/-- The little-endian wide-format header bytes
`49 49 2B 00 08 00 00 00 10 00 00 00 00 00 00 00`. -/
def hdrBufWide : List Nat :=
  [0x49, 0x49, 0x2b, 0x00, 0x08, 0x00, 0x00, 0x00,
   0x10, 0x00, 0x00, 0x00, 0x00, 0x00, 0x00, 0x00]

/-- The bytes `00 00 2A 00 08 00 00 00`: invalid byte-order marker. -/
def badOrderBuf : List Nat := [0x00, 0x00, 0x2a, 0x00, 0x08, 0x00, 0x00, 0x00]

/-- The bytes `49 49 00 00 08 00 00 00`: valid marker, format code 0. -/
def badMagicBuf : List Nat := [0x49, 0x49, 0x00, 0x00, 0x08, 0x00, 0x00, 0x00]

/-- The 8-byte classic little-endian buffer `49 49 2A 00 08 00 00 00` whose
first directory offset 8 is the end of the buffer, so reading the entry
count there is out of bounds. -/
def truncBuf : List Nat := [0x49, 0x49, 0x2a, 0x00, 0x08, 0x00, 0x00, 0x00]

/-- A directory holding tile width/length/offset tags, a duplicate tile
width entry with a different value, and no tile-byte-counts tag. -/
def dupIfd : Ifd :=
  { offset := 8,
    entries := [{ tag := 322, type := 3, count := 1, value := 7 },
                { tag := 323, type := 3, count := 1, value := 8 },
                { tag := 324, type := 4, count := 1, value := 42 },
                { tag := 322, type := 3, count := 1, value := 99 }],
    nextIfdOffset := 0 }

/-- Two directories: the first fully tiled, the second without tile tags. -/
def exTwo : TiffStructure :=
  { header := hdrLE8,
    ifds := [{ offset := 8,
               entries := [{ tag := 322, type := 3, count := 1, value := 256 },
                           { tag := 323, type := 3, count := 1, value := 256 },
                           { tag := 324, type := 4, count := 1, value := 2000 }],
               nextIfdOffset := 100 },
             { offset := 100, entries := [], nextIfdOffset := 0 }] }

/-- A single fully tiled directory at offset 8 whose tile data offset 10
lies below the estimated metadata end 8 + 6 + 3 × 12 = 50. -/
def exInterleaved : TiffStructure :=
  { header := hdrLE8,
    ifds := [{ offset := 8,
               entries := [{ tag := 322, type := 3, count := 1, value := 256 },
                           { tag := 323, type := 3, count := 1, value := 256 },
                           { tag := 324, type := 4, count := 1, value := 10 }],
               nextIfdOffset := 0 }] }

/-- A file whose single directory at offset 8 points back to itself. -/
def circBuf : List Nat :=
  [0x49, 0x49, 0x2a, 0x00, 0x08, 0x00, 0x00, 0x00,
   0x00, 0x00, 0x08, 0x00, 0x00, 0x00]

/-- A file with a two-directory chain: 8 → 14 → 0, both directories empty. -/
def chain2Buf : List Nat :=
  [0x49, 0x49, 0x2a, 0x00, 0x08, 0x00, 0x00, 0x00,
   0x00, 0x00, 0x0e, 0x00, 0x00, 0x00,
   0x00, 0x00, 0x00, 0x00, 0x00, 0x00]

/-- `ChainSteps view header off ifds last`: starting at `off`, the
directories `ifds` parse in sequence by following next-pointers, leaving
the walk at offset `last`. -/
inductive ChainSteps (view : List Nat) (header : TiffHeader) :
    Nat → List Ifd → Nat → Prop
  | nil (off : Nat) : ChainSteps view header off [] off
  | cons {off last : Nat} {d : Ifd} {ds : List Ifd}
      (h0 : off ≠ 0) (hp : parseIfd view off header = .ok d)
      (hrest : ChainSteps view header d.nextIfdOffset ds last) :
      ChainSteps view header off (d :: ds) last


/-- C9: on an empty directory sequence, `validate` returns immediately with
`valid = false`, exactly the error "No IFDs found in file", and no
warnings; no tiling or interleaving check runs. -/
theorem validate_no_ifds (s : TiffStructure) (h : s.ifds = []) :
    validate s = { valid := false, errors := ["No IFDs found in file"],
                   warnings := [] } := by
  obtain ⟨hd, ifds⟩ := s
  cases ifds with
  | nil => rfl
  | cons a l => exact absurd h (by simp)

theorem validate_no_ifds_witness :
    validate { header := hdrLE8, ifds := [] } =
      { valid := false, errors := ["No IFDs found in file"], warnings := [] } :=
  validate_no_ifds { header := hdrLE8, ifds := [] } rfl

/-- C10: a successfully decoded header whose first directory offset is 0
makes the chain walk return an empty sequence with no error, so `parseTiff`
succeeds; validation then reports `valid = false` with the
"No IFDs found in file" error — a parsed-but-invalid outcome, not a fatal
parse failure. -/
theorem parse_zero_first_offset (view : List Nat) (header : TiffHeader)
    (hh : parseHeader view = .ok header) (h0 : header.firstIfdOffset = 0) :
    parseAllIfds view header = .ok []
    ∧ parseTiff view = .ok { header := header, ifds := [] }
    ∧ validate { header := header, ifds := [] } =
      { valid := false, errors := ["No IFDs found in file"], warnings := [] } := by
  have hall : parseAllIfds view header = .ok [] := by
    unfold parseAllIfds parseIfdsAux
    rw [h0]
    simp
  refine ⟨hall, ?_, rfl⟩
  unfold parseTiff
  rw [hh]
  simp [hall]

theorem parse_zero_first_offset_witness :
    parseAllIfds zeroOffBuf
        { bigTiff := false, littleEndian := true, firstIfdOffset := 0 } = .ok []
    ∧ parseTiff zeroOffBuf =
      .ok { header := { bigTiff := false, littleEndian := true, firstIfdOffset := 0 },
            ifds := [] }
    ∧ validate { header := { bigTiff := false, littleEndian := true, firstIfdOffset := 0 },
                 ifds := [] } =
      { valid := false, errors := ["No IFDs found in file"], warnings := [] } :=
  parse_zero_first_offset zeroOffBuf
    { bigTiff := false, littleEndian := true, firstIfdOffset := 0 } rfl rfl

/-- C6: on a buffer whose byte-order marker is recognized and whose format
code (read in the detected byte order) is 42 or 43, `parseHeader` returns
`littleEndian` per the marker, `bigTiff` false for classic / true for wide,
and the first directory offset read as 32-bit from bytes 4-7 (classic) or
as 64-bit from bytes 8-15 (wide). -/
theorem parseHeader_valid (view : List Nat) (bo : Nat) (le : Bool) (magic : Nat)
    (hbo : getUint view 0 2 false = some bo)
    (hrec : bo = 0x4949 ∨ bo = 0x4d4d)
    (hle : le = (bo == 0x4949))
    (hm : getUint view 2 2 le = some magic) :
    (magic = 42 → ∀ off, getUint view 4 4 le = some off →
      parseHeader view = .ok { bigTiff := false, littleEndian := le,
                               firstIfdOffset := off })
    ∧ (magic = 43 → ∀ off, getUint view 8 8 le = some off →
      parseHeader view = .ok { bigTiff := true, littleEndian := le,
                               firstIfdOffset := off }) := by
  subst hle
  have hcond : ¬(bo ≠ 0x4949 ∧ bo ≠ 0x4d4d) := by
    rcases hrec with h | h <;> simp [h]
  constructor
  · intro h42 off hoff
    subst h42
    unfold parseHeader
    rw [hbo]
    simp only [if_neg hcond]
    rw [hm]
    simp [hoff]
  · intro h43 off hoff
    subst h43
    unfold parseHeader
    rw [hbo]
    simp only [if_neg hcond]
    rw [hm]
    simp [hoff]

theorem parseHeader_valid_witness :
    parseHeader hdrBufLE =
      .ok { bigTiff := false, littleEndian := true, firstIfdOffset := 8 }
    ∧ parseHeader hdrBufBE =
      .ok { bigTiff := false, littleEndian := false, firstIfdOffset := 8 }
    ∧ parseHeader hdrBufWide =
      .ok { bigTiff := true, littleEndian := true, firstIfdOffset := 16 } :=
  ⟨(parseHeader_valid hdrBufLE 0x4949 true 42 rfl (Or.inl rfl) rfl rfl).1 rfl 8 rfl,
   (parseHeader_valid hdrBufBE 0x4d4d false 42 rfl (Or.inr rfl) rfl rfl).1 rfl 8 rfl,
   (parseHeader_valid hdrBufWide 0x4949 true 43 rfl (Or.inl rfl) rfl rfl).2 rfl 16 rfl⟩

/-- C7: an unrecognized byte-order marker fails with the byte-order error;
a recognized marker followed by a format code that is neither 42 nor 43
fails with the magic-number error carrying the value read.  Both failures
happen in `parseHeader`, before any directory is read. -/
theorem parseHeader_invalid (view : List Nat) :
    (∀ bo, getUint view 0 2 false = some bo → bo ≠ 0x4949 → bo ≠ 0x4d4d →
      parseHeader view = .error .badByteOrder)
    ∧ (∀ bo le magic, getUint view 0 2 false = some bo →
        (bo = 0x4949 ∨ bo = 0x4d4d) → le = (bo == 0x4949) →
        getUint view 2 2 le = some magic → magic ≠ 42 → magic ≠ 43 →
        parseHeader view = .error (.badMagic magic)) := by
  constructor
  · intro bo hbo h1 h2
    unfold parseHeader
    rw [hbo]
    simp [h1, h2]
  · intro bo le magic hbo hrec hle hm h42 h43
    subst hle
    have hcond : ¬(bo ≠ 0x4949 ∧ bo ≠ 0x4d4d) := by
      rcases hrec with h | h <;> simp [h]
    unfold parseHeader
    rw [hbo]
    simp only [if_neg hcond]
    rw [hm]
    simp [h42, h43]

theorem parseHeader_invalid_witness :
    parseHeader badOrderBuf = .error .badByteOrder
    ∧ parseHeader badMagicBuf = .error (.badMagic 0) :=
  ⟨(parseHeader_invalid badOrderBuf).1 0 rfl (by decide) (by decide),
   (parseHeader_invalid badMagicBuf).2 0x4949 true 0 rfl (Or.inl rfl) rfl rfl
     (by decide) (by decide)⟩

/-- C8: the directory reader performs no explicit bounds check; at the
failing input the out-of-bounds entry-count read surfaces as the JS
runtime's generic `RangeError` (`rangeError` here) — the same kind any
out-of-bounds `DataView` read anywhere produces — not a distinct
truncated-data error kind raised by the reader. -/
theorem parseIfd_truncated_rangeError :
    parseIfd truncBuf 8 hdrLE8 = .error .rangeError
    ∧ parseTiff truncBuf = .error .rangeError := ⟨rfl, rfl⟩

/-- `find?` returns the first match: if `e` satisfies `p` and everything
before it does not, the search over `before ++ e :: after` yields `e`. -/
theorem find?_first {α : Type} (p : α → Bool) (before after : List α) (e : α)
    (he : p e = true) (hnone : ∀ x ∈ before, p x = false) :
    (before ++ e :: after).find? p = some e := by
  induction before with
  | nil => simp [List.find?_cons, he]
  | cons a l ih =>
    have ha : p a = false := hnone a (by simp)
    simp only [List.cons_append, List.find?_cons, ha]
    exact ih (fun x hx => hnone x (by simp [hx]))

/-- Tag lookup succeeds exactly when some entry carries the tag. -/
theorem getTagValue_isSome (ifd : Ifd) (t : Nat) :
    (getTagValue ifd t).isSome = true ↔ ∃ e ∈ ifd.entries, e.tag = t := by
  simp [getTagValue, List.find?_isSome]

/-- C2: `isTiled` holds iff tag IDs 322 (tile width), 323 (tile length) and
324 (tile data offsets) each have at least one entry — 325 (tile byte
counts) is not consulted; tag lookup returns the value of the first entry
in stored order with the requested tag, and `none` when no entry has it,
so with duplicate tag IDs only the first entry is visible. -/
theorem isTiled_spec (ifd : Ifd) :
    (isTiled ifd = true ↔
      ((∃ e ∈ ifd.entries, e.tag = 322) ∧ (∃ e ∈ ifd.entries, e.tag = 323)
        ∧ (∃ e ∈ ifd.entries, e.tag = 324)))
    ∧ (∀ (t : Nat) (before after : List IfdEntry) (e : IfdEntry),
        ifd.entries = before ++ e :: after → e.tag = t →
        (∀ x ∈ before, x.tag ≠ t) → getTagValue ifd t = some e.value)
    ∧ (∀ t : Nat, (∀ e ∈ ifd.entries, e.tag ≠ t) → getTagValue ifd t = none) := by
  refine ⟨?_, ?_, ?_⟩
  · simp only [isTiled, Bool.and_eq_true]
    rw [getTagValue_isSome, getTagValue_isSome, getTagValue_isSome]
    tauto
  · intro t before after e hsplit he hnone
    unfold getTagValue
    rw [hsplit, find?_first (fun x => x.tag == t) before after e (by simp [he])
      (fun x hx => by simp [hnone x hx])]
    rfl
  · intro t hnone
    unfold getTagValue
    rw [List.find?_eq_none.mpr (fun x hx => by simp [hnone x hx])]
    rfl

theorem isTiled_spec_witness :
    isTiled dupIfd = true
    ∧ getTagValue dupIfd 322 = some 7
    ∧ getTagValue dupIfd 325 = none :=
  ⟨(isTiled_spec dupIfd).1.mpr (by decide),
   (isTiled_spec dupIfd).2.1 322 []
     [{ tag := 323, type := 3, count := 1, value := 8 },
      { tag := 324, type := 4, count := 1, value := 42 },
      { tag := 322, type := 3, count := 1, value := 99 }]
     { tag := 322, type := 3, count := 1, value := 7 } rfl rfl (by simp),
   (isTiled_spec dupIfd).2.2 325 (by decide)⟩

/-- C1: for a non-empty directory sequence, the error list is exactly the
per-directory tiling errors in file order — "Main image is not tiled" at
index 0, "Overview <i> is not tiled" at index i > 0, emitted precisely for
the untiled directories with no short-circuit and no other error — and
`valid` is true iff the error list is empty. -/
theorem validate_tiling (s : TiffStructure) (h : s.ifds ≠ []) :
    (validate s).errors = s.ifds.enum.filterMap (fun p =>
      if isTiled p.2 then none
      else some ((if p.1 = 0 then "Main image" else "Overview " ++ toString p.1)
        ++ " is not tiled"))
    ∧ ((validate s).valid = true ↔ (validate s).errors = []) := by
  obtain ⟨hd, ifds⟩ := s
  cases ifds with
  | nil => exact absurd rfl h
  | cons a l =>
    refine ⟨rfl, ?_⟩
    have hv : (validate { header := hd, ifds := a :: l }).valid
        = ((validate { header := hd, ifds := a :: l }).errors.length == 0) := rfl
    rw [hv]
    generalize (validate { header := hd, ifds := a :: l }).errors = E
    cases E <;> simp

theorem validate_tiling_witness :
    ((validate exTwo).errors = exTwo.ifds.enum.filterMap (fun p =>
      if isTiled p.2 then none
      else some ((if p.1 = 0 then "Main image" else "Overview " ++ toString p.1)
        ++ " is not tiled"))
    ∧ ((validate exTwo).valid = true ↔ (validate exTwo).errors = []))
    ∧ (validate exTwo).errors = ["Overview 1 is not tiled"] :=
  ⟨validate_tiling exTwo (by decide), by decide⟩

/-- C3: for a non-empty directory sequence the warning list is determined by
the minimum tile-data-offset value (tag 324) collected across all
directories: if such offsets exist and their minimum is strictly below the
maximum `selfOffset` plus `6 + 12 × entryCount` of the last directory —
the classic-format constants regardless of format width — the single
warning "Tile data may be interleaved with IFDs." is emitted, else none;
and the warning never changes `valid`, which stays true iff the error list
is empty. -/
theorem validate_interleaving (s : TiffStructure) (h : s.ifds ≠ []) (M : Nat)
    (hM : (s.ifds.map Ifd.offset).max? = some M) :
    (validate s).warnings =
      (match (s.ifds.filterMap (fun d => getTagValue d 324)).min? with
       | none => []
       | some m =>
         if m < M + (6 + (s.ifds.getLast h).entries.length * 12) then
           ["Tile data may be interleaved with IFDs."]
         else [])
    ∧ ((validate s).valid = true ↔ (validate s).errors = []) := by
  obtain ⟨hd, ifds⟩ := s
  cases ifds with
  | nil => exact absurd rfl h
  | cons a l =>
    have hM' : (l.map Ifd.offset).foldl max a.offset = M := by
      simpa [List.max?] using hM
    constructor
    · have hend : ((a :: l).map Ifd.offset).foldl max 0
          + estimateIfdSize ((a :: l).getLast (List.cons_ne_nil a l))
          = M + (6 + ((a :: l).getLast h).entries.length * 12) := by
        rw [← hM']
        simp [estimateIfdSize, Nat.mul_comm]
      show (match (a :: l).filterMap (fun d => getTagValue d 324) with
            | [] => ([] : List String)
            | t :: ts =>
              if ts.foldl min t < ((a :: l).map Ifd.offset).foldl max 0
                  + estimateIfdSize ((a :: l).getLast (List.cons_ne_nil a l)) then
                ["Tile data may be interleaved with IFDs."]
              else []) = _
      rw [hend]
      cases (a :: l).filterMap (fun d => getTagValue d 324) with
      | nil => rfl
      | cons t ts => simp [List.min?]
    · have hv : (validate { header := hd, ifds := a :: l }).valid
          = ((validate { header := hd, ifds := a :: l }).errors.length == 0) := rfl
      rw [hv]
      generalize (validate { header := hd, ifds := a :: l }).errors = E
      cases E <;> simp

theorem validate_interleaving_witness :
    ((validate exInterleaved).warnings =
      (match (exInterleaved.ifds.filterMap (fun d => getTagValue d 324)).min? with
       | none => []
       | some m =>
         if m < 8 + (6 + (exInterleaved.ifds.getLast (by decide)).entries.length * 12) then
           ["Tile data may be interleaved with IFDs."]
         else [])
    ∧ ((validate exInterleaved).valid = true ↔ (validate exInterleaved).errors = []))
    ∧ (validate exInterleaved).warnings = ["Tile data may be interleaved with IFDs."]
    ∧ (validate exInterleaved).valid = true :=
  ⟨validate_interleaving exInterleaved (by decide) 8 rfl, by decide, by decide⟩

/-- Loop-exit equation: a zero current offset ends the walk successfully. -/
theorem parseIfdsAux_done (view : List Nat) (header : TiffHeader)
    (fuel : Nat) (seen : List Nat) :
    parseIfdsAux view header fuel 0 seen = .ok [] := by
  unfold parseIfdsAux
  simp

/-- Fuel-exhaustion equation: a nonzero offset with no fuel left is the
`ifds.length >= MAX_IFDS` branch. -/
theorem parseIfdsAux_fuel_zero (view : List Nat) (header : TiffHeader)
    (off : Nat) (seen : List Nat) (h0 : off ≠ 0) :
    parseIfdsAux view header 0 off seen = .error (.tooLong MAX_IFDS) := by
  unfold parseIfdsAux
  rw [if_neg h0]

/-- Loop-step equation for a nonzero offset with fuel remaining. -/
theorem parseIfdsAux_step (view : List Nat) (header : TiffHeader)
    (fuel off : Nat) (seen : List Nat) (h0 : off ≠ 0) :
    parseIfdsAux view header (fuel + 1) off seen =
      if off ∈ seen then .error (.circular off)
      else
        match parseIfd view off header with
        | .error e => .error e
        | .ok ifd =>
          match parseIfdsAux view header fuel ifd.nextIfdOffset (off :: seen) with
          | .error e => .error e
          | .ok rest => .ok (ifd :: rest) := by
  conv_lhs => unfold parseIfdsAux
  rw [if_neg h0]

/-- A successfully parsed directory records the offset it was parsed at. -/
theorem parseIfd_offset_eq {view : List Nat} {off : Nat} {header : TiffHeader}
    {d : Ifd} (h : parseIfd view off header = .ok d) : d.offset = off := by
  unfold parseIfd at h
  split at h
  · simp at h
  · split at h
    · simp at h
    · split at h
      · simp at h
      · simp only [Except.ok.injEq] at h
        subst h
        rfl

/-- Invariant of the chain-walk loop: a successful walk visits pairwise
distinct offsets, none of them previously seen, and parses at most `fuel`
directories. -/
theorem parseIfdsAux_ok_inv (view : List Nat) (header : TiffHeader) :
    ∀ (fuel off : Nat) (seen : List Nat) (ifds : List Ifd),
      parseIfdsAux view header fuel off seen = .ok ifds →
      (ifds.map Ifd.offset).Nodup ∧ (∀ o ∈ ifds.map Ifd.offset, o ∉ seen)
        ∧ ifds.length ≤ fuel := by
  intro fuel
  induction fuel with
  | zero =>
    intro off seen ifds h
    by_cases h0 : off = 0
    · subst h0
      rw [parseIfdsAux_done] at h
      simp only [Except.ok.injEq] at h
      subst h
      simp
    · rw [parseIfdsAux_fuel_zero view header off seen h0] at h
      simp at h
  | succ fuel ih =>
    intro off seen ifds h
    by_cases h0 : off = 0
    · subst h0
      rw [parseIfdsAux_done] at h
      simp only [Except.ok.injEq] at h
      subst h
      simp
    · rw [parseIfdsAux_step view header fuel off seen h0] at h
      by_cases hmem : off ∈ seen
      · rw [if_pos hmem] at h
        simp at h
      · rw [if_neg hmem] at h
        cases hifd : parseIfd view off header with
        | error e => rw [hifd] at h; simp at h
        | ok ifd =>
          rw [hifd] at h
          simp only [] at h
          cases hrest : parseIfdsAux view header fuel ifd.nextIfdOffset (off :: seen) with
          | error e => rw [hrest] at h; simp at h
          | ok rest =>
            rw [hrest] at h
            simp only [] at h
            simp only [Except.ok.injEq] at h
            subst h
            obtain ⟨hnd, hdis, hlen⟩ := ih ifd.nextIfdOffset (off :: seen) rest hrest
            have hoff : ifd.offset = off := parseIfd_offset_eq hifd
            refine ⟨?_, ?_, ?_⟩
            · simp only [List.map_cons, List.nodup_cons]
              exact ⟨fun hc => (hdis _ hc) (by simp [hoff]), hnd⟩
            · intro o ho
              simp only [List.map_cons, List.mem_cons] at ho
              rcases ho with ho | ho
              · rw [ho, hoff]; exact hmem
              · intro hc
                exact (hdis o ho) (by simp [hc])
            · simp only [List.length_cons]
              omega

/-- C4: the chain walk never visits an offset twice — a successful walk
returns directories with pairwise distinct offsets, and reaching an offset
already in the visited set fails at once with the circular-chain error for
that offset, surfacing no partial sequence. -/
theorem parse_chain_no_revisit (view : List Nat) (header : TiffHeader) :
    (∀ ifds, parseAllIfds view header = .ok ifds →
      (ifds.map Ifd.offset).Nodup)
    ∧ (∀ off seen fuel, off ≠ 0 → 0 < fuel → off ∈ seen →
        parseIfdsAux view header fuel off seen = .error (.circular off)) := by
  constructor
  · intro ifds h
    exact (parseIfdsAux_ok_inv view header MAX_IFDS header.firstIfdOffset [] ifds h).1
  · intro off seen fuel h0 hf hmem
    match fuel, hf with
    | fuel' + 1, _ =>
      rw [parseIfdsAux_step view header fuel' off seen h0, if_pos hmem]

theorem parse_chain_no_revisit_witness :
    parseIfdsAux circBuf hdrLE8 999 8 [8] = .error (.circular 8)
    ∧ parseTiff circBuf = .error (.circular 8) :=
  ⟨(parse_chain_no_revisit circBuf hdrLE8).2 8 [8] 999 (by decide) (by decide)
     (by decide), rfl⟩

/-- A parseable, terminating, revisit-free chain that fits in the fuel is
walked to exactly its directory list. -/
theorem parseIfdsAux_of_chain (view : List Nat) (header : TiffHeader) :
    ∀ (ifds : List Ifd) (off : Nat) (seen : List Nat) (fuel : Nat),
      ChainSteps view header off ifds 0 →
      (ifds.map Ifd.offset).Nodup →
      (∀ o ∈ ifds.map Ifd.offset, o ∉ seen) →
      ifds.length ≤ fuel →
      parseIfdsAux view header fuel off seen = .ok ifds
  | [], off, seen, fuel, hch, _, _, _ => by
    cases hch
    exact parseIfdsAux_done view header fuel seen
  | d :: ds, off, seen, fuel, hch, hnd, hdis, hlen => by
    cases hch with
    | cons h0 hp hrest =>
      have hoff : d.offset = off := parseIfd_offset_eq hp
      match fuel, hlen with
      | fuel' + 1, hlen =>
        have hlen' : ds.length ≤ fuel' := by
          simp only [List.length_cons] at hlen
          omega
        have hmem : off ∉ seen := hdis off (by simp [hoff])
        have hnd' : (ds.map Ifd.offset).Nodup := by
          simp only [List.map_cons, List.nodup_cons] at hnd
          exact hnd.2
        have hdis' : ∀ o ∈ ds.map Ifd.offset, o ∉ off :: seen := by
          intro o ho
          simp only [List.mem_cons]
          rintro (hc | hc)
          · subst hc
            simp only [List.map_cons, List.nodup_cons] at hnd
            exact hnd.1 (by simpa [hoff] using ho)
          · exact (hdis o (by simp [ho])) hc
        have ihres := parseIfdsAux_of_chain view header ds d.nextIfdOffset
          (off :: seen) fuel' hrest hnd' hdis' hlen'
        rw [parseIfdsAux_step view header fuel' off seen h0, if_neg hmem, hp]
        simp only []
        rw [ihres]

/-- A parseable revisit-free chain of exactly `fuel` directories that has
not yet terminated makes the walk run out of fuel with the
chain-too-long error. -/
theorem parseIfdsAux_of_chain_long (view : List Nat) (header : TiffHeader) :
    ∀ (ifds : List Ifd) (off last : Nat) (seen : List Nat),
      ChainSteps view header off ifds last →
      last ≠ 0 →
      (ifds.map Ifd.offset).Nodup →
      (∀ o ∈ ifds.map Ifd.offset, o ∉ seen) →
      parseIfdsAux view header ifds.length off seen = .error (.tooLong MAX_IFDS)
  | [], off, last, seen, hch, hlast, _, _ => by
    cases hch
    exact parseIfdsAux_fuel_zero view header _ seen hlast
  | d :: ds, off, last, seen, hch, hlast, hnd, hdis => by
    cases hch with
    | cons h0 hp hrest =>
      have hoff : d.offset = off := parseIfd_offset_eq hp
      have hmem : off ∉ seen := hdis off (by simp [hoff])
      have hnd' : (ds.map Ifd.offset).Nodup := by
        simp only [List.map_cons, List.nodup_cons] at hnd
        exact hnd.2
      have hdis' : ∀ o ∈ ds.map Ifd.offset, o ∉ off :: seen := by
        intro o ho
        simp only [List.mem_cons]
        rintro (hc | hc)
        · subst hc
          simp only [List.map_cons, List.nodup_cons] at hnd
          exact hnd.1 (by simpa [hoff] using ho)
        · exact (hdis o (by simp [ho])) hc
      have ihres := parseIfdsAux_of_chain_long view header ds d.nextIfdOffset
        last (off :: seen) hrest hlast hnd' hdis'
      show parseIfdsAux view header (ds.length + 1) off seen = _
      rw [parseIfdsAux_step view header ds.length off seen h0, if_neg hmem, hp]
      simp only []
      rw [ihres]

/-- C5: the chain walk is bounded — a successful walk returns at most 1000
directories; a parseable revisit-free chain that terminates (next offset 0)
within 1000 directories is walked successfully; and a chain still holding a
nonzero next offset after 1000 parsed directories fails with the
chain-too-long error naming the maximum, producing no partial structure. -/
theorem parseAllIfds_capped (view : List Nat) (header : TiffHeader) :
    (∀ ifds, parseAllIfds view header = .ok ifds → ifds.length ≤ MAX_IFDS)
    ∧ (∀ ifds, ChainSteps view header header.firstIfdOffset ifds 0 →
        (ifds.map Ifd.offset).Nodup → ifds.length ≤ MAX_IFDS →
        parseAllIfds view header = .ok ifds)
    ∧ (∀ ifds last, ChainSteps view header header.firstIfdOffset ifds last →
        last ≠ 0 → (ifds.map Ifd.offset).Nodup → ifds.length = MAX_IFDS →
        parseAllIfds view header = .error (.tooLong MAX_IFDS)) := by
  refine ⟨?_, ?_, ?_⟩
  · intro ifds h
    exact (parseIfdsAux_ok_inv view header MAX_IFDS header.firstIfdOffset [] ifds h).2.2
  · intro ifds hch hnd hlen
    exact parseIfdsAux_of_chain view header ifds header.firstIfdOffset [] MAX_IFDS
      hch hnd (by simp) hlen
  · intro ifds last hch hlast hnd hlen
    have hres := parseIfdsAux_of_chain_long view header ifds header.firstIfdOffset
      last [] hch hlast hnd (by simp)
    rw [hlen] at hres
    exact hres

theorem parseAllIfds_capped_witness :
    parseAllIfds chain2Buf hdrLE8 =
      .ok [{ offset := 8, entries := [], nextIfdOffset := 14 },
           { offset := 14, entries := [], nextIfdOffset := 0 }] :=
  (parseAllIfds_capped chain2Buf hdrLE8).2.1
    [{ offset := 8, entries := [], nextIfdOffset := 14 },
     { offset := 14, entries := [], nextIfdOffset := 0 }]
    (.cons (by decide) rfl (.cons (by decide) rfl (.nil 0)))
    (by decide) (by decide)

end Cog
